import Mathlib

/-!
Verification of the adaptive-traffic-ai simulation core.

Shallow embedding of the intersection step relation
(src/simulation/intersection.py), the multi-intersection network
(src/simulation/multi_intersection.py), the tabular Q-learning controller
(src/models/rl_controller.py) and the feedforward neural controller
(src/models/neural_controller.py), with theorems checking the spec claims.

Python ints are modelled as Int, Python floats appearing in the discrete
simulator as Rat, and the neural-network reals as Real.  Python `int(x)`
truncates toward zero, which `pyInt` reproduces.
-/

/-- Python `int(x)` on a real-for-us rational value: truncation toward zero. -/
def pyInt (q : ℚ) : ℤ := if 0 ≤ q then ⌊q⌋ else ⌈q⌉

/-- The state dict built by `Intersection.observe_state`. -/
structure TrafficState where
  intersection : ℤ
  queue_ns : ℤ
  queue_ew : ℤ
  phase : String
  time_of_day : String
  emergency : Bool
deriving DecidableEq, Repr

/-- One arrivals record of the generator stream, as consumed by `step`. -/
structure Arrivals where
  step : ℤ
  time_of_day : String
  arrivals_ns : ℤ
  arrivals_ew : ℤ
  emergency : Bool
deriving DecidableEq, Repr

/-- A controller decision dict: duration, optional target phase, explanation.
`target_phase := none` models the key being absent from the dict. -/
structure Decision where
  duration : ℚ
  target_phase : Option String := none
  explanation : String := ""
deriving DecidableEq, Repr

/-- The log record emitted by `Intersection.step`. -/
structure LogRecord where
  step : ℤ
  intersection : ℤ
  time_of_day : String
  phase_used : String
  duration : ℚ
  queue_ns : ℤ
  queue_ew : ℤ
  served_ns : ℤ
  served_ew : ℤ
  throughput : ℤ
  avg_wait_proxy : ℚ
  stops : ℤ
  emergency : Bool
  explanation : String
deriving DecidableEq, Repr

/-- The mutable state of one `Intersection` instance. -/
structure Intersection where
  intersection_id : ℤ
  service_rate : ℤ := 1
  queue_ns : ℤ := 0
  queue_ew : ℤ := 0
  phase : String := "NS"
deriving DecidableEq, Repr

namespace Intersection

/-- `Intersection.observe_state`. -/
def observe_state (self : Intersection) (time_of_day : String) (emergency : Bool) :
    TrafficState :=
  { intersection := self.intersection_id
    queue_ns := self.queue_ns
    queue_ew := self.queue_ew
    phase := self.phase
    time_of_day := time_of_day
    emergency := emergency }

/-- `Intersection._apply_emergency`: returns the mutated intersection together
with the `(overridden, message)` pair the Python method returns. -/
def applyEmergency (self : Intersection) (emergency : Bool) :
    Intersection × Bool × String :=
  if !emergency then (self, false, "")
  else
    ({ self with phase := if self.queue_ns ≥ self.queue_ew then "NS" else "EW" },
     true, "Emergency override: granted immediate green to priority approach.")

/-- `Intersection.step`: returns the mutated intersection, the log record and
the reward. -/
def step (self : Intersection) (arrivals : Arrivals) (decision : Decision) :
    Intersection × LogRecord × ℚ :=
  let s1 : Intersection :=
    { self with queue_ns := self.queue_ns + arrivals.arrivals_ns
                queue_ew := self.queue_ew + arrivals.arrivals_ew }
  let emergency := arrivals.emergency
  let em := s1.applyEmergency emergency
  let s2 := em.1
  let overridden := em.2.1
  let override_msg := em.2.2
  let duration := if !overridden then decision.duration else max 5 decision.duration
  let phase_used :=
    match decision.target_phase, overridden with
    | some tp, false => tp
    | _, _ => s2.phase
  let served :=
    if phase_used = "NS" then
      min s2.queue_ns (pyInt ((s2.service_rate : ℚ) * duration))
    else
      min s2.queue_ew (pyInt ((s2.service_rate : ℚ) * duration))
  let served_ns := if phase_used = "NS" then served else 0
  let served_ew := if phase_used = "NS" then 0 else served
  let stops := if phase_used = "NS" then s2.queue_ew else s2.queue_ns
  let s3 :=
    if phase_used = "NS" then { s2 with queue_ns := s2.queue_ns - served }
    else { s2 with queue_ew := s2.queue_ew - served }
  let throughput := served_ns + served_ew
  let avg_wait : ℚ :=
    if s3.queue_ns + s3.queue_ew = 0 then 0 else ((s3.queue_ns + s3.queue_ew : ℤ) : ℚ) / 2
  let explanation :=
    if override_msg = "" then decision.explanation
    else decision.explanation ++ " | " ++ override_msg
  let s4 :=
    match decision.target_phase with
    | some _ => { s3 with phase := phase_used }
    | none =>
      if !emergency then { s3 with phase := if s3.phase = "NS" then "EW" else "NS" }
      else s3
  let log : LogRecord :=
    { step := arrivals.step
      intersection := self.intersection_id
      time_of_day := arrivals.time_of_day
      phase_used := phase_used
      duration := duration
      queue_ns := s3.queue_ns
      queue_ew := s3.queue_ew
      served_ns := served_ns
      served_ew := served_ew
      throughput := throughput
      avg_wait_proxy := avg_wait
      stops := stops
      emergency := emergency
      explanation := explanation }
  let reward : ℚ := (throughput : ℚ) - avg_wait - 3 / 10 * (stops : ℚ)
  (s4, log, reward)

end Intersection

/-- `MultiIntersectionNetwork`. -/
structure MultiIntersectionNetwork where
  intersections : List Intersection
  controller_name : String
deriving Repr

/-- The main loop of `MultiIntersectionNetwork.step`: steps the intersections
in index order and also records the `downstream_inflows` writes made after
each intersection (those writes are discarded by the caller, exactly as the
Python local list is never read after the first pass). -/
def stepAll : List Intersection → List Arrivals → List Decision →
    List Intersection × List LogRecord × List ℚ × List ℤ
  | inter :: is, a :: as, d :: ds =>
    let r := inter.step a d
    let rest := stepAll is as ds
    (r.1 :: rest.1, r.2.1 :: rest.2.1, r.2.2 :: rest.2.2.1,
      pyInt (3 / 5 * (r.2.1.throughput : ℚ)) :: rest.2.2.2)
  | is, _, _ => (is, [], [], [])

namespace MultiIntersectionNetwork

/-- `MultiIntersectionNetwork.__init__`. -/
def init (intersections : ℕ) (controller_name : String) (service_rate : ℤ) :
    MultiIntersectionNetwork :=
  { intersections :=
      (List.range intersections).map fun i =>
        { intersection_id := (i : ℤ), service_rate := service_rate }
    controller_name := controller_name }

/-- `MultiIntersectionNetwork.step`.  The `downstream_inflows` list is
initialised to zeros and added to the NS arrivals before any intersection is
stepped; the values written into it by the main loop (returned by `stepAll`)
are never read again.  Mismatched list lengths would raise in Python, hence
`Option`. -/
def step (net : MultiIntersectionNetwork) (arrivals : List Arrivals)
    (decisions : List Decision) :
    Option (MultiIntersectionNetwork × List LogRecord × List ℚ) :=
  if arrivals.length = net.intersections.length ∧
      decisions.length = net.intersections.length then
    let downstream_inflows : List ℤ := net.intersections.map fun _ => 0
    let arrivals2 := (arrivals.zip downstream_inflows).map
      fun p => { p.1 with arrivals_ns := p.1.arrivals_ns + p.2 }
    let r := stepAll net.intersections arrivals2 decisions
    some ({ net with intersections := r.1 }, r.2.1, r.2.2.1)
  else none

end MultiIntersectionNetwork

/-! ## Tabular Q-learning controller (src/models/rl_controller.py)

Python dicts are modelled as insertion-ordered association lists.  The
pseudo-random exploration of `decide` is not needed by any claim; the
`last_key` / `last_action` attributes that `decide` sets (and whose presence
`learn` tests with `hasattr`) are modelled as one `Option` field. -/

/-- Lookup in an insertion-ordered association list (Python `d[k]` /
`k in d`, returning `none` where Python would raise `KeyError`). -/
def alookup {α β : Type} [DecidableEq α] : List (α × β) → α → Option β
  | [], _ => none
  | (k1, v) :: rest, k => if k = k1 then some v else alookup rest k

/-- Assignment `d[k] = v` in an insertion-ordered association list: update in
place if present, else append at the end (Python dict insertion order). -/
def aset {α β : Type} [DecidableEq α] : List (α × β) → α → β → List (α × β)
  | [], k, v => [(k, v)]
  | (k1, v1) :: rest, k, v =>
    if k = k1 then (k, v) :: rest else (k1, v1) :: aset rest k v

/-- Python `max(d.values())`: `none` on an empty dict (where Python raises). -/
def maxVals {α : Type} : List (α × ℚ) → Option ℚ
  | [] => none
  | (_, v) :: rest =>
    match maxVals rest with
    | none => some v
    | some m => some (max v m)

/-- A discretized state key: the 7-tuple built by `_state_key`, with one
field per tuple component. -/
structure QKey where
  bucket_ns : String
  bucket_ew : String
  trend_ns : String
  trend_ew : String
  phase : String
  time_of_day : String
  emergency : Bool
deriving DecidableEq, Repr

/-- The state of a `QLearningController` instance.  `last` models the
`last_key` / `last_action` attribute pair (absent before the first `decide`);
`last_queues_ns` / `last_queues_ew` model the `last_queues` dict. -/
structure QLearningController where
  actions : List ℤ := [10, 12, 14]
  alpha : ℚ := 8 / 100
  gamma : ℚ := 9 / 10
  epsilon : ℚ := 3 / 100
  epsilon_min : ℚ := 1 / 100
  epsilon_decay : ℚ := 998 / 1000
  step_count : ℕ := 0
  q : List (QKey × List (ℤ × ℚ)) := []
  last : Option (QKey × ℤ) := none
  last_queues_ns : ℤ := 0
  last_queues_ew : ℤ := 0

namespace QLearningController

/-- `QLearningController._bucket`. -/
def bucket (x : ℤ) : String :=
  if x < 4 then "low" else if x < 10 then "med" else "high"

/-- `QLearningController._state_key`. -/
def stateKey (self : QLearningController) (state : TrafficState) : QKey :=
  let q_ns := state.queue_ns
  let q_ew := state.queue_ew
  let delta_ns := q_ns - self.last_queues_ns
  let delta_ew := q_ew - self.last_queues_ew
  ⟨bucket q_ns, bucket q_ew,
   if delta_ns > 0 then "ns_growing" else "ns_stable",
   if delta_ew > 0 then "ew_growing" else "ew_stable",
   state.phase, state.time_of_day, state.emergency⟩

/-- `QLearningController._ensure_state`: lazily initialise a key with the
optimistic table favouring the 12 second action. -/
def ensureState (self : QLearningController) (key : QKey) : QLearningController :=
  match alookup self.q key with
  | some _ => self
  | none =>
    { self with
      q := self.q ++ [(key, self.actions.map fun a => (a, if a = 12 then (5 : ℚ) else 2))] }

/-- `QLearningController.learn`.  `none` models the `KeyError` Python would
raise when reading `self.q[key][action]` for a key or action that is absent
(unreachable after a real `decide`). -/
def learn (self : QLearningController) (state : TrafficState) (reward : ℚ)
    (next_state : TrafficState) : Option QLearningController :=
  match self.last with
  | none => some self
  | some (key, action) =>
    let next_key := self.stateKey next_state
    let s1 := self.ensureState next_key
    match alookup s1.q key with
    | none => none
    | some tbl =>
      match alookup tbl action with
      | none => none
      | some old_value =>
        match maxVals ((alookup s1.q next_key).getD []) with
        | none => none
        | some next_best =>
          let updated :=
            old_value + s1.alpha * (reward + s1.gamma * next_best - old_value)
          some { s1 with q := aset s1.q key (aset tbl action updated) }

end QLearningController

/-! ## Feedforward neural controller (src/models/neural_controller.py)

The Python floats of the network are modelled as real numbers; the sizes are
the constructor defaults (5 inputs, 6 hidden units), which are the only ones
`_encode` can feed.  The seed-42 weight initialisation is an unspecified
stream of pseudo-random floats, so theorems quantify over arbitrary
weights. -/

/-- One remembered transition `{features, pred_norm}`. -/
structure MemRec where
  features : Fin 5 → ℝ
  pred_norm : ℝ

/-- The decision dict returned by the neural controller (no target phase). -/
structure NDecision where
  duration : ℝ
  explanation : String

/-- The state of a `NeuralController` instance. -/
structure NeuralController where
  lr : ℝ := 1 / 100
  w1 : Fin 6 → Fin 5 → ℝ
  b1 : Fin 6 → ℝ
  w2 : Fin 6 → ℝ
  b2 : ℝ
  memory : List MemRec := []

/-- Python `f"{b}"` on a bool. -/
def pyBoolRepr (b : Bool) : String := if b then "True" else "False"

namespace NeuralController

noncomputable section

/-- `NeuralController._sigmoid`. -/
def sigmoid (x : ℝ) : ℝ := 1 / (1 + Real.exp (-x))

/-- Weighted input of hidden unit `i` (the sum `s` in `_forward`). -/
def preact (c : NeuralController) (features : Fin 5 → ℝ) (i : Fin 6) : ℝ :=
  (∑ j, c.w1 i j * features j) + c.b1 i

/-- Activation of hidden unit `i` in `_forward`. -/
def hiddenAct (c : NeuralController) (features : Fin 5 → ℝ) (i : Fin 6) : ℝ :=
  sigmoid (preact c features i)

/-- The raw output sum of `_forward`, before the output sigmoid. -/
def rawOut (c : NeuralController) (features : Fin 5 → ℝ) : ℝ :=
  (∑ i, c.w2 i * hiddenAct c features i) + c.b2

/-- `NeuralController._forward`: normalized prediction and hidden layer. -/
def forward (c : NeuralController) (features : Fin 5 → ℝ) : ℝ × (Fin 6 → ℝ) :=
  (sigmoid (rawOut c features), hiddenAct c features)

/-- `NeuralController._encode`. -/
def encode (state : TrafficState) : Fin 5 → ℝ :=
  let ns := min 1 ((state.queue_ns : ℝ) / 30)
  let ew := min 1 ((state.queue_ew : ℝ) / 30)
  let phase : ℝ := if state.phase = "NS" then 1 else 0
  let tod : ℝ :=
    if state.time_of_day = "morning" then 1
    else if state.time_of_day = "afternoon" then 1 / 2
    else if state.time_of_day = "night" then 1 / 5
    else 1 / 2
  let emergency : ℝ := if state.emergency then 1 else 0
  ![ns, ew, phase, tod, emergency]

/-- `NeuralController.decide`: returns the decision dict and the controller
with the new transition appended to `memory`. -/
def decide (c : NeuralController) (state : TrafficState) :
    NDecision × NeuralController :=
  let feats := encode state
  let pred_norm := (forward c feats).1
  let duration := 4 + 12 * pred_norm
  let explanation :=
    "Neural policy: queues NS/EW=(" ++ toString state.queue_ns ++ "," ++
      toString state.queue_ew ++ "), time=" ++ state.time_of_day ++
      ", emergency=" ++ pyBoolRepr state.emergency
  (⟨duration, explanation⟩,
   { c with memory := c.memory ++ [⟨feats, pred_norm⟩] })

/-- The local `grad_out = error * pred_norm * (1 - pred_norm)` of
`NeuralController.learn`, where `error = pred_norm - target` and `pred_norm`
is the recomputed forward prediction on the remembered features. -/
def gradOut (c : NeuralController) (feats : Fin 5 → ℝ) (target : ℝ) : ℝ :=
  (sigmoid (rawOut c feats) - target) * sigmoid (rawOut c feats) *
    (1 - sigmoid (rawOut c feats))

/-- The updated output weights `w2[i] -= lr * grad_out * h[i]` of
`NeuralController.learn`. -/
def w2Upd (c : NeuralController) (feats : Fin 5 → ℝ) (target : ℝ)
    (i : Fin 6) : ℝ :=
  c.w2 i - c.lr * gradOut c feats target * hiddenAct c feats i

/-- The local `grad_h` of `NeuralController.learn`: note that it reads the
already updated output weight, exactly as the Python loop updates `w2[i]`
before computing `grad_h` from it. -/
def gradH (c : NeuralController) (feats : Fin 5 → ℝ) (target : ℝ)
    (i : Fin 6) : ℝ :=
  gradOut c feats target * w2Upd c feats target i * hiddenAct c feats i *
    (1 - hiddenAct c feats i)

/-- The weight updates of `NeuralController.learn`, given the remembered
features and the bounded target. -/
def backprop (c : NeuralController) (feats : Fin 5 → ℝ) (target : ℝ) :
    NeuralController :=
  { c with
    w1 := fun i j => c.w1 i j - c.lr * gradH c feats target i * feats j
    b1 := fun i => c.b1 i - c.lr * gradH c feats target i
    w2 := w2Upd c feats target
    b2 := c.b2 - c.lr * gradOut c feats target }

/-- `NeuralController.learn`: no-op without memory, otherwise recompute the
forward pass on the remembered features, build the clamped target from the
scaled reward, and run one gradient step. -/
def learn (c : NeuralController) (state : TrafficState) (reward : ℝ)
    (next_state : TrafficState) : NeuralController :=
  match c.memory.getLast? with
  | none => c
  | some last =>
    let feats := last.features
    let pred_norm := sigmoid (rawOut c feats)
    let reward_scaled := max (-1) (min 1 (reward / 20))
    let target := max 0 (min 1 (pred_norm + 3 / 10 * reward_scaled))
    backprop c feats target

end

end NeuralController

/-! ## Concrete instances used to exercise the definitions -/

/-- An intersection holding 2 NS vehicles, phase NS, service rate 1. -/
def interNeg : Intersection :=
  { intersection_id := 0, service_rate := 1, queue_ns := 2, queue_ew := 0, phase := "NS" }

/-- A quiet arrivals record: no arrivals, no emergency. -/
def arrivalsQuiet : Arrivals :=
  { step := 0, time_of_day := "morning", arrivals_ns := 0, arrivals_ew := 0,
    emergency := false }

/-- A decision carrying the (contract-violating) negative duration -3. -/
def decisionNeg : Decision := { duration := -3 }

/-- A two-intersection network where the upstream intersection holds 10 NS
vehicles and the downstream one is empty. -/
def netTwo : MultiIntersectionNetwork :=
  { intersections :=
      [{ intersection_id := 0, service_rate := 1, queue_ns := 10, queue_ew := 0,
         phase := "NS" },
       { intersection_id := 1, service_rate := 1, queue_ns := 0, queue_ew := 0,
         phase := "NS" }]
    controller_name := "fixed" }

/-- A plain 10 second decision with no target phase. -/
def decisionTen : Decision := { duration := 10 }

/-- An intersection with unequal queues, used for the emergency-override and
bound checks (queue_ns 10, queue_ew 3 as in the spec test scenario). -/
def interBusy : Intersection :=
  { intersection_id := 0, service_rate := 1, queue_ns := 10, queue_ew := 3,
    phase := "EW" }

/-- An arrivals record with the emergency flag set. -/
def arrivalsEmergency : Arrivals :=
  { step := 0, time_of_day := "morning", arrivals_ns := 0, arrivals_ew := 0,
    emergency := true }

/-- A 7 second decision explicitly targeting the EW phase. -/
def decisionSevenEW : Decision :=
  { duration := 7, target_phase := some "EW", explanation := "plan" }

/-- The discretized key of the all-zero traffic state. -/
def keyZero : QKey :=
  ⟨"low", "low", "ns_stable", "ew_stable", "NS", "morning", false⟩

/-- The all-zero traffic state. -/
def stateZero : TrafficState :=
  { intersection := 0, queue_ns := 0, queue_ew := 0, phase := "NS",
    time_of_day := "morning", emergency := false }

/-- A Q-learning controller that has just recorded a decision for `keyZero`
with action 12 (value 5 from the optimistic initialisation). -/
def qcRecorded : QLearningController :=
  { q := [(keyZero, [(10, 2), (12, 5), (14, 2)])]
    last := some (keyZero, 12) }

/-- A neural controller with all-zero weights and empty memory. -/
noncomputable def ncZero : NeuralController :=
  { w1 := fun _ _ => 0, b1 := fun _ => 0, w2 := fun _ => 0, b2 := 0 }

/-- A neural controller with all-zero weights and one remembered transition. -/
noncomputable def ncRemembered : NeuralController :=
  { w1 := fun _ _ => 0, b1 := fun _ => 0, w2 := fun _ => 0, b2 := 0,
    memory := [⟨fun _ => 0, 1 / 2⟩] }

/-! ## Helper lemmas -/

theorem pyInt_intCast (n : ℤ) : pyInt ((n : ℚ)) = n := by
  unfold pyInt
  split <;> simp

theorem pyInt_le_self {q : ℚ} (h : 0 ≤ q) : (pyInt q : ℚ) ≤ q := by
  unfold pyInt
  rw [if_pos h]
  exact Int.floor_le q

theorem sub_min_nonneg (q x : ℤ) (h : 0 ≤ q) : 0 ≤ q - min q x := by
  have := min_le_left q x
  omega

/-! ## Claim C4: emergency override -/

/-- C4: when the emergency flag is set, `Intersection.step` uses the phase of
the longer post-arrival queue (ties favour NS) regardless of the target phase
in the decision, uses duration `max 5 (decision duration)`, and appends the
fixed override note to the explanation. -/
theorem step_emergency_override (i : Intersection) (a : Arrivals) (d : Decision)
    (he : a.emergency = true) :
    (i.step a d).2.1.phase_used =
      (if i.queue_ns + a.arrivals_ns ≥ i.queue_ew + a.arrivals_ew then "NS" else "EW") ∧
    (i.step a d).2.1.duration = max 5 d.duration ∧
    (i.step a d).2.1.explanation =
      d.explanation ++ " | " ++
        "Emergency override: granted immediate green to priority approach." := by
  rcases d with ⟨dur, tp, ex⟩
  unfold Intersection.step Intersection.applyEmergency
  rcases tp with _ | tp <;> simp [he]

/-- Witness for C4 at queue_ns 10, queue_ew 3 with an explicit EW target. -/
theorem step_emergency_override_witness :
    arrivalsEmergency.emergency = true ∧
    (interBusy.step arrivalsEmergency decisionSevenEW).2.1.phase_used =
      (if interBusy.queue_ns + arrivalsEmergency.arrivals_ns ≥
          interBusy.queue_ew + arrivalsEmergency.arrivals_ew then "NS" else "EW") ∧
    (interBusy.step arrivalsEmergency decisionSevenEW).2.1.duration =
      max 5 decisionSevenEW.duration ∧
    (interBusy.step arrivalsEmergency decisionSevenEW).2.1.explanation =
      decisionSevenEW.explanation ++ " | " ++
        "Emergency override: granted immediate green to priority approach." :=
  ⟨rfl, step_emergency_override interBusy arrivalsEmergency decisionSevenEW rfl⟩

/-! ## Claim C5: queue and phase invariant -/

/-- C5: from any state with non-negative queues and a phase in {NS, EW},
a step with non-negative arrivals, non-negative duration and a target phase
absent or in {NS, EW} yields non-negative queues and a phase in {NS, EW}. -/
theorem step_invariant (i : Intersection) (a : Arrivals) (d : Decision)
    (hns : 0 ≤ i.queue_ns) (hew : 0 ≤ i.queue_ew)
    (hph : i.phase = "NS" ∨ i.phase = "EW")
    (hans : 0 ≤ a.arrivals_ns) (haew : 0 ≤ a.arrivals_ew)
    (hdur : 0 ≤ d.duration)
    (htp : d.target_phase = none ∨ d.target_phase = some "NS" ∨
      d.target_phase = some "EW") :
    0 ≤ (i.step a d).1.queue_ns ∧ 0 ≤ (i.step a d).1.queue_ew ∧
      ((i.step a d).1.phase = "NS" ∨ (i.step a d).1.phase = "EW") := by
  rcases d with ⟨dur, tp, ex⟩
  unfold Intersection.step Intersection.applyEmergency
  have hns2 : 0 ≤ i.queue_ns + a.arrivals_ns := by omega
  have hew2 : 0 ≤ i.queue_ew + a.arrivals_ew := by omega
  rcases htp with h | h | h <;> subst h <;>
    rcases he : a.emergency <;>
      simp [he, sub_min_nonneg _ _ hns2, sub_min_nonneg _ _ hew2, hns2, hew2] <;>
        split_ifs <;>
          simp_all [sub_min_nonneg _ _ hns2, sub_min_nonneg _ _ hew2]

/-- Witness for C5. -/
theorem step_invariant_witness :
    (0 : ℤ) ≤ interBusy.queue_ns ∧
    (0 ≤ (interBusy.step arrivalsQuiet decisionTen).1.queue_ns ∧
     0 ≤ (interBusy.step arrivalsQuiet decisionTen).1.queue_ew ∧
     ((interBusy.step arrivalsQuiet decisionTen).1.phase = "NS" ∨
      (interBusy.step arrivalsQuiet decisionTen).1.phase = "EW")) :=
  ⟨by decide,
   step_invariant interBusy arrivalsQuiet decisionTen (by decide) (by decide)
     (Or.inr rfl) (by decide) (by decide) (by norm_num [decisionTen])
     (Or.inl rfl)⟩

/-! ## Claim C6: throughput bounds -/

set_option maxHeartbeats 2000000 in
/-- C6: with a non-negative decision duration (and the non-negative service
rate every constructed intersection has), the logged throughput is at most
`service_rate * duration` for the logged duration, and at most the
post-arrival queue length of the serviced approach. -/
theorem step_throughput_bounds (i : Intersection) (a : Arrivals) (d : Decision)
    (hdur : 0 ≤ d.duration) (hrate : 0 ≤ i.service_rate) :
    ((i.step a d).2.1.throughput : ℚ) ≤
      (i.service_rate : ℚ) * (i.step a d).2.1.duration ∧
    ((i.step a d).2.1.phase_used = "NS" →
      (i.step a d).2.1.throughput ≤ i.queue_ns + a.arrivals_ns) ∧
    ((i.step a d).2.1.phase_used ≠ "NS" →
      (i.step a d).2.1.throughput ≤ i.queue_ew + a.arrivals_ew) := by
  rcases d with ⟨dur, tp, ex⟩
  simp only [Decision.duration] at hdur
  unfold Intersection.step Intersection.applyEmergency
  have hrate2 : (0 : ℚ) ≤ (i.service_rate : ℚ) := by exact_mod_cast hrate
  have h5 : (0 : ℚ) ≤ max 5 dur := le_trans (by norm_num) (le_max_left 5 dur)
  have key : ∀ (q : ℤ) (t : ℚ), 0 ≤ t →
      ((q ⊓ pyInt ((i.service_rate : ℚ) * t) : ℤ) : ℚ) ≤ (i.service_rate : ℚ) * t :=
    fun q t ht =>
      le_trans (Int.cast_le.mpr (min_le_right _ _))
        (pyInt_le_self (mul_nonneg hrate2 ht))
  have keymin : ∀ q x : ℤ, q ⊓ x ≤ q := fun q x => min_le_left q x
  rcases tp with _ | tp <;> rcases he : a.emergency <;> simp [he] <;> split_ifs <;>
    refine ⟨?_, ?_, ?_⟩ <;>
      first
        | (simpa using key (i.queue_ns + a.arrivals_ns) dur hdur)
        | (simpa using key (i.queue_ew + a.arrivals_ew) dur hdur)
        | (simpa using key (i.queue_ns + a.arrivals_ns) (max 5 dur) h5)
        | (simpa using key (i.queue_ew + a.arrivals_ew) (max 5 dur) h5)
        | (intro hpu
           first
             | (have hm := keymin (i.queue_ns + a.arrivals_ns)
                  (pyInt ((i.service_rate : ℚ) * dur)); omega)
             | (have hm := keymin (i.queue_ew + a.arrivals_ew)
                  (pyInt ((i.service_rate : ℚ) * dur)); omega)
             | (have hm := keymin (i.queue_ns + a.arrivals_ns)
                  (pyInt ((i.service_rate : ℚ) * max 5 dur)); omega)
             | (have hm := keymin (i.queue_ew + a.arrivals_ew)
                  (pyInt ((i.service_rate : ℚ) * max 5 dur)); omega)
             | simp_all)

/-- Witness for C6. -/
theorem step_throughput_bounds_witness :
    (0 : ℚ) ≤ decisionTen.duration ∧
    (((interBusy.step arrivalsQuiet decisionTen).2.1.throughput : ℚ) ≤
      (interBusy.service_rate : ℚ) *
        (interBusy.step arrivalsQuiet decisionTen).2.1.duration ∧
    ((interBusy.step arrivalsQuiet decisionTen).2.1.phase_used = "NS" →
      (interBusy.step arrivalsQuiet decisionTen).2.1.throughput ≤
        interBusy.queue_ns + arrivalsQuiet.arrivals_ns) ∧
    ((interBusy.step arrivalsQuiet decisionTen).2.1.phase_used ≠ "NS" →
      (interBusy.step arrivalsQuiet decisionTen).2.1.throughput ≤
        interBusy.queue_ew + arrivalsQuiet.arrivals_ew)) :=
  ⟨by norm_num [decisionTen],
   step_throughput_bounds interBusy arrivalsQuiet decisionTen
     (by norm_num [decisionTen]) (by decide)⟩

/-! ## Claim C2: negative durations are not treated as 0 served -/

theorem pyInt_neg_three : pyInt (-3 : ℚ) = -3 := by
  unfold pyInt
  rw [if_neg (by norm_num), show (-3 : ℚ) = ((-3 : ℤ) : ℚ) by norm_num,
    Int.ceil_intCast]

theorem pyInt_ten : pyInt (10 : ℚ) = 10 := by
  unfold pyInt
  rw [if_pos (by norm_num), show (10 : ℚ) = ((10 : ℤ) : ℚ) by norm_num,
    Int.floor_intCast]

/-- C2 (code bug): with queue_ns 2, phase NS, no emergency and the
contract-violating duration -3, `Intersection.step` reports -3 vehicles
served on the active approach and grows the queue from 2 to 5, instead of
treating the negative duration as 0 served. -/
theorem step_negative_duration_not_zero :
    (interNeg.step arrivalsQuiet decisionNeg).2.1.served_ns = -3 ∧
    (interNeg.step arrivalsQuiet decisionNeg).1.queue_ns = 5 := by
  have h : pyInt ((1 : ℤ) * (-3 : ℚ)) = -3 := by
    rw [show ((1 : ℤ) : ℚ) * (-3 : ℚ) = (-3 : ℚ) by norm_num, pyInt_neg_three]
  constructor <;>
    · simp [Intersection.step, Intersection.applyEmergency, interNeg,
        arrivalsQuiet, decisionNeg, h]
      decide

/-! ## Claim C1: the downstream inflow is never applied -/

/-- C1 (code bug): stepping the two-intersection network with zero raw
arrivals, where the upstream intersection serves 10 vehicles, leaves the
downstream intersection with throughput 0: the `downstream_inflows`
accumulator is applied (still all zeros) before any intersection is stepped,
so the floor(0.6 x 10) = 6 extra NS arrivals the spec promises never reach
intersection 1. -/
theorem network_inflow_never_applied :
    (netTwo.step [arrivalsQuiet, arrivalsQuiet] [decisionTen, decisionTen]).map
        (fun r => r.2.1.map fun l => l.throughput) = some [10, 0] := by
  simp [MultiIntersectionNetwork.step, netTwo, stepAll, Intersection.step,
    Intersection.applyEmergency, arrivalsQuiet, decisionTen, pyInt_ten]

/-! ## Claim C7: the Q-learning update moves toward its target -/

theorem alookup_aset_self {α β : Type} [DecidableEq α]
    (l : List (α × β)) (k : α) (v : β) : alookup (aset l k v) k = some v := by
  induction l with
  | nil => simp [aset, alookup]
  | cons p rest ih =>
    rcases p with ⟨k1, v1⟩
    by_cases h : k = k1 <;> simp [aset, alookup, h, ih]

theorem ensureState_alpha (c : QLearningController) (key : QKey) :
    (c.ensureState key).alpha = c.alpha := by
  unfold QLearningController.ensureState
  split <;> rfl

theorem ensureState_gamma (c : QLearningController) (key : QKey) :
    (c.ensureState key).gamma = c.gamma := by
  unfold QLearningController.ensureState
  split <;> rfl

/-- C7: after a recorded decision, `learn` rewrites the (key, action) value to
`old + 0.08 * (reward + 0.9 * next_best - old)`, which is unchanged when
`old = reward + 0.9 * next_best` and otherwise strictly closer to that
target. -/
theorem qlearn_moves_toward_target
    (c : QLearningController) (s next_s : TrafficState) (r : ℚ)
    (k : QKey) (a : ℤ) (tbl : List (ℤ × ℚ)) (old nb : ℚ)
    (halpha : c.alpha = 8 / 100) (hgamma : c.gamma = 9 / 10)
    (hlast : c.last = some (k, a))
    (htbl : alookup (c.ensureState (c.stateKey next_s)).q k = some tbl)
    (hold : alookup tbl a = some old)
    (hnb : maxVals ((alookup (c.ensureState (c.stateKey next_s)).q
        (c.stateKey next_s)).getD []) = some nb) :
    ((c.learn s r next_s).bind fun c2 => (alookup c2.q k).bind fun t =>
        alookup t a) = some (old + 8 / 100 * (r + 9 / 10 * nb - old)) ∧
    (old = r + 9 / 10 * nb → old + 8 / 100 * (r + 9 / 10 * nb - old) = old) ∧
    (old ≠ r + 9 / 10 * nb →
      |old + 8 / 100 * (r + 9 / 10 * nb - old) - (r + 9 / 10 * nb)| <
        |old - (r + 9 / 10 * nb)|) := by
  refine ⟨?_, ?_, ?_⟩
  · unfold QLearningController.learn
    rw [hlast]
    simp only [htbl, hold, hnb, ensureState_alpha, ensureState_gamma, halpha,
      hgamma, Option.bind_eq_bind, Option.some_bind]
    simp [alookup_aset_self]
  · intro h
    rw [h]
    ring
  · intro h
    have h1 : old + 8 / 100 * (r + 9 / 10 * nb - old) - (r + 9 / 10 * nb) =
        (1 - 8 / 100) * (old - (r + 9 / 10 * nb)) := by ring
    rw [h1, abs_mul, show |(1 : ℚ) - 8 / 100| = 92 / 100 by norm_num]
    have hpos : 0 < |old - (r + 9 / 10 * nb)| :=
      abs_pos.mpr (sub_ne_zero.mpr h)
    exact mul_lt_of_lt_one_left hpos (by norm_num)

/-- Witness for C7 with the recorded key and action 12, old value 5,
next-best 5, reward 1 (target 5.5). -/
theorem qlearn_moves_toward_target_witness :
    ((qcRecorded.learn stateZero 1 stateZero).bind fun c2 =>
        (alookup c2.q keyZero).bind fun t => alookup t 12)
      = some (5 + 8 / 100 * (1 + 9 / 10 * 5 - 5)) ∧
    ((5 : ℚ) = 1 + 9 / 10 * 5 →
      (5 : ℚ) + 8 / 100 * (1 + 9 / 10 * 5 - 5) = 5) ∧
    ((5 : ℚ) ≠ 1 + 9 / 10 * 5 →
      |(5 : ℚ) + 8 / 100 * (1 + 9 / 10 * 5 - 5) - (1 + 9 / 10 * 5)| <
        |(5 : ℚ) - (1 + 9 / 10 * 5)|) :=
  qlearn_moves_toward_target qcRecorded stateZero stateZero 1 keyZero 12
    [(10, 2), (12, 5), (14, 2)] 5 5 rfl rfl rfl (by decide) (by decide)
    (by decide)

/-! ## Claim C9: `learn` never reads its `state` argument -/

/-- C9: two `learn` calls differing only in the `state` argument produce
identical controllers: the update uses only the recorded key and action and
the `next_state`. -/
theorem qlearn_ignores_state (c : QLearningController)
    (s1 s2 next_s : TrafficState) (r : ℚ) :
    c.learn s1 r next_s = c.learn s2 r next_s := rfl

/-! ## Claim C3: the neural memory is appended to, not overwritten -/

/-- C3 (counterexample): after two `decide` calls on a fresh-memory
controller the memory holds two records, so it does not contain at most one
record. -/
theorem neural_memory_not_single :
    ¬ ((ncZero.decide stateZero).2.decide stateZero).2.memory.length ≤ 1 := by
  simp [NeuralController.decide, ncZero]

/-- C3 (amended): every `decide` call appends the new {features, prediction}
record at the end of `memory` (so memory grows by one per call and the last
record is the one from the most recent `decide`, which is the record `learn`
reads). -/
theorem neural_decide_appends_memory (c : NeuralController) (s : TrafficState) :
    (c.decide s).2.memory =
      c.memory ++
        [⟨NeuralController.encode s,
          (NeuralController.forward c (NeuralController.encode s)).1⟩] := rfl

/-! ## Sigmoid facts used by the learning claims -/

theorem sigmoid_pos (x : ℝ) : 0 < NeuralController.sigmoid x := by
  unfold NeuralController.sigmoid
  positivity

theorem sigmoid_lt_one (x : ℝ) : NeuralController.sigmoid x < 1 := by
  unfold NeuralController.sigmoid
  rw [div_lt_one (by positivity)]
  linarith [Real.exp_pos (-x)]

theorem sigmoid_mono {x y : ℝ} (h : x ≤ y) :
    NeuralController.sigmoid x ≤ NeuralController.sigmoid y := by
  unfold NeuralController.sigmoid
  have hy : 0 < 1 + Real.exp (-y) := by positivity
  have hxy : 1 + Real.exp (-y) ≤ 1 + Real.exp (-x) := by
    have := Real.exp_le_exp.mpr (neg_le_neg h)
    linarith
  exact one_div_le_one_div_of_le hy hxy

/-! ## Claim C10: zero reward leaves all weights unchanged -/

/-- C10: with a non-empty memory, `learn` with reward 0 builds a target equal
to the recomputed prediction, so the error is zero and every weight and bias
is unchanged. -/
theorem neural_learn_zero_reward_frame (c : NeuralController)
    (s next_s : TrafficState) (hmem : c.memory ≠ []) :
    (c.learn s 0 next_s).w1 = c.w1 ∧ (c.learn s 0 next_s).b1 = c.b1 ∧
    (c.learn s 0 next_s).w2 = c.w2 ∧ (c.learn s 0 next_s).b2 = c.b2 := by
  obtain ⟨last, hlast⟩ : ∃ last, c.memory.getLast? = some last := by
    cases h : c.memory.getLast? with
    | none => exact absurd (List.getLast?_eq_none_iff.mp h) hmem
    | some l => exact ⟨l, rfl⟩
  have hp0 : (0 : ℝ) ≤
      NeuralController.sigmoid (NeuralController.rawOut c last.features) :=
    (sigmoid_pos _).le
  have hp1 : NeuralController.sigmoid (NeuralController.rawOut c last.features) ≤ 1 :=
    (sigmoid_lt_one _).le
  unfold NeuralController.learn
  rw [hlast]
  have ht : max 0 (min 1
      (NeuralController.sigmoid (NeuralController.rawOut c last.features) +
        3 / 10 * max (-1) (min 1 ((0 : ℝ) / 20)))) =
      NeuralController.sigmoid (NeuralController.rawOut c last.features) := by
    norm_num
    rw [min_eq_right hp1, max_eq_right hp0]
  simp only [ht]
  have hg : NeuralController.gradOut c last.features
      (NeuralController.sigmoid (NeuralController.rawOut c last.features)) = 0 := by
    unfold NeuralController.gradOut
    ring
  refine ⟨funext fun i => funext fun j => ?_, funext fun i => ?_,
    funext fun i => ?_, ?_⟩ <;>
    simp [NeuralController.backprop, NeuralController.gradH,
      NeuralController.w2Upd, hg]

/-- Witness for C10. -/
theorem neural_learn_zero_reward_frame_witness :
    ncRemembered.memory ≠ [] ∧
    ((ncRemembered.learn stateZero 0 stateZero).w1 = ncRemembered.w1 ∧
     (ncRemembered.learn stateZero 0 stateZero).b1 = ncRemembered.b1 ∧
     (ncRemembered.learn stateZero 0 stateZero).w2 = ncRemembered.w2 ∧
     (ncRemembered.learn stateZero 0 stateZero).b2 = ncRemembered.b2) :=
  ⟨by simp [ncRemembered],
   neural_learn_zero_reward_frame ncRemembered stateZero stateZero
     (by simp [ncRemembered])⟩

/-! ## Claim C8: lemmas about one gradient step -/

theorem gradOut_nonpos (c : NeuralController) (f : Fin 5 → ℝ) {t : ℝ}
    (ht : NeuralController.sigmoid (NeuralController.rawOut c f) ≤ t) :
    NeuralController.gradOut c f t ≤ 0 := by
  have h0 : 0 ≤ NeuralController.sigmoid (NeuralController.rawOut c f) :=
    (sigmoid_pos _).le
  have h1 : NeuralController.sigmoid (NeuralController.rawOut c f) ≤ 1 :=
    (sigmoid_lt_one _).le
  unfold NeuralController.gradOut
  nlinarith [mul_nonneg h0 (by linarith :
    (0 : ℝ) ≤ 1 - NeuralController.sigmoid (NeuralController.rawOut c f))]

theorem gradOut_nonneg (c : NeuralController) (f : Fin 5 → ℝ) {t : ℝ}
    (ht : t ≤ NeuralController.sigmoid (NeuralController.rawOut c f)) :
    0 ≤ NeuralController.gradOut c f t := by
  have h0 : 0 ≤ NeuralController.sigmoid (NeuralController.rawOut c f) :=
    (sigmoid_pos _).le
  have h1 : NeuralController.sigmoid (NeuralController.rawOut c f) ≤ 1 :=
    (sigmoid_lt_one _).le
  unfold NeuralController.gradOut
  nlinarith [mul_nonneg h0 (by linarith :
    (0 : ℝ) ≤ 1 - NeuralController.sigmoid (NeuralController.rawOut c f))]

theorem preact_backprop (c : NeuralController) (f : Fin 5 → ℝ) (t : ℝ)
    (i : Fin 6) :
    NeuralController.preact (NeuralController.backprop c f t) f i =
      NeuralController.preact c f i -
        c.lr * NeuralController.gradH c f t i * ((∑ j, f j * f j) + 1) := by
  have hs : ∑ j, (c.w1 i j - c.lr * NeuralController.gradH c f t i * f j) * f j
      = (∑ j, c.w1 i j * f j) -
        c.lr * NeuralController.gradH c f t i * ∑ j, f j * f j := by
    rw [Finset.mul_sum, ← Finset.sum_sub_distrib]
    exact Finset.sum_congr rfl fun j _ => by ring
  simp only [NeuralController.preact, NeuralController.backprop]
  rw [hs]
  ring

theorem backprop_term_ge (c : NeuralController) (f : Fin 5 → ℝ) (t : ℝ)
    (i : Fin 6) (hlr : 0 ≤ c.lr) (hg : NeuralController.gradOut c f t ≤ 0) :
    c.w2 i * NeuralController.hiddenAct c f i ≤
      NeuralController.w2Upd c f t i *
        NeuralController.hiddenAct (NeuralController.backprop c f t) f i := by
  have h0 : 0 ≤ NeuralController.hiddenAct c f i := by
    unfold NeuralController.hiddenAct
    exact (sigmoid_pos _).le
  have h1 : NeuralController.hiddenAct c f i ≤ 1 := by
    unfold NeuralController.hiddenAct
    exact (sigmoid_lt_one _).le
  have hfs : 0 ≤ (∑ j, f j * f j) + 1 := by
    have h := Finset.sum_nonneg fun j (_ : j ∈ Finset.univ) => mul_self_nonneg (f j)
    linarith
  have step1 : c.w2 i * NeuralController.hiddenAct c f i ≤
      NeuralController.w2Upd c f t i * NeuralController.hiddenAct c f i := by
    have key : 0 ≤ c.lr * (- NeuralController.gradOut c f t) *
        (NeuralController.hiddenAct c f i * NeuralController.hiddenAct c f i) :=
      mul_nonneg (mul_nonneg hlr (neg_nonneg.mpr hg)) (mul_nonneg h0 h0)
    unfold NeuralController.w2Upd
    nlinarith [key]
  refine le_trans step1 ?_
  have hb : NeuralController.hiddenAct (NeuralController.backprop c f t) f i =
      NeuralController.sigmoid (NeuralController.preact c f i -
        c.lr * NeuralController.gradH c f t i * ((∑ j, f j * f j) + 1)) := by
    unfold NeuralController.hiddenAct
    rw [preact_backprop]
  have hAct : NeuralController.hiddenAct c f i =
      NeuralController.sigmoid (NeuralController.preact c f i) := rfl
  rw [hb]
  rcases le_or_lt 0 (NeuralController.w2Upd c f t i) with hw | hw
  · have hgh : NeuralController.gradH c f t i ≤ 0 := by
      have key : 0 ≤ NeuralController.w2Upd c f t i *
          (NeuralController.hiddenAct c f i *
            (1 - NeuralController.hiddenAct c f i)) :=
        mul_nonneg hw (mul_nonneg h0 (by linarith))
      unfold NeuralController.gradH
      nlinarith [key, hg]
    have harg : NeuralController.preact c f i ≤ NeuralController.preact c f i -
        c.lr * NeuralController.gradH c f t i * ((∑ j, f j * f j) + 1) := by
      have key : 0 ≤ c.lr * (- NeuralController.gradH c f t i) *
          ((∑ j, f j * f j) + 1) :=
        mul_nonneg (mul_nonneg hlr (neg_nonneg.mpr hgh)) hfs
      nlinarith [key]
    calc NeuralController.w2Upd c f t i * NeuralController.hiddenAct c f i
        = NeuralController.w2Upd c f t i *
            NeuralController.sigmoid (NeuralController.preact c f i) := by rw [hAct]
      _ ≤ _ := mul_le_mul_of_nonneg_left (sigmoid_mono harg) hw
  · have hgh : 0 ≤ NeuralController.gradH c f t i := by
      have key1 : 0 ≤ NeuralController.gradOut c f t *
          NeuralController.w2Upd c f t i := by nlinarith [hg, hw.le]
      have key : 0 ≤ (NeuralController.gradOut c f t *
            NeuralController.w2Upd c f t i) *
          (NeuralController.hiddenAct c f i *
            (1 - NeuralController.hiddenAct c f i)) :=
        mul_nonneg key1 (mul_nonneg h0 (by linarith))
      unfold NeuralController.gradH
      nlinarith [key]
    have harg : NeuralController.preact c f i -
        c.lr * NeuralController.gradH c f t i * ((∑ j, f j * f j) + 1) ≤
          NeuralController.preact c f i := by
      have key : 0 ≤ c.lr * NeuralController.gradH c f t i *
          ((∑ j, f j * f j) + 1) :=
        mul_nonneg (mul_nonneg hlr hgh) hfs
      linarith
    calc NeuralController.w2Upd c f t i * NeuralController.hiddenAct c f i
        = NeuralController.w2Upd c f t i *
            NeuralController.sigmoid (NeuralController.preact c f i) := by rw [hAct]
      _ ≤ _ := mul_le_mul_of_nonpos_left (sigmoid_mono harg) hw.le

theorem backprop_term_le (c : NeuralController) (f : Fin 5 → ℝ) (t : ℝ)
    (i : Fin 6) (hlr : 0 ≤ c.lr) (hg : 0 ≤ NeuralController.gradOut c f t) :
    NeuralController.w2Upd c f t i *
        NeuralController.hiddenAct (NeuralController.backprop c f t) f i ≤
      c.w2 i * NeuralController.hiddenAct c f i := by
  have h0 : 0 ≤ NeuralController.hiddenAct c f i := by
    unfold NeuralController.hiddenAct
    exact (sigmoid_pos _).le
  have h1 : NeuralController.hiddenAct c f i ≤ 1 := by
    unfold NeuralController.hiddenAct
    exact (sigmoid_lt_one _).le
  have hfs : 0 ≤ (∑ j, f j * f j) + 1 := by
    have h := Finset.sum_nonneg fun j (_ : j ∈ Finset.univ) => mul_self_nonneg (f j)
    linarith
  have step1 : NeuralController.w2Upd c f t i * NeuralController.hiddenAct c f i ≤
      c.w2 i * NeuralController.hiddenAct c f i := by
    have key : 0 ≤ c.lr * NeuralController.gradOut c f t *
        (NeuralController.hiddenAct c f i * NeuralController.hiddenAct c f i) :=
      mul_nonneg (mul_nonneg hlr hg) (mul_nonneg h0 h0)
    unfold NeuralController.w2Upd
    nlinarith [key]
  refine le_trans ?_ step1
  have hb : NeuralController.hiddenAct (NeuralController.backprop c f t) f i =
      NeuralController.sigmoid (NeuralController.preact c f i -
        c.lr * NeuralController.gradH c f t i * ((∑ j, f j * f j) + 1)) := by
    unfold NeuralController.hiddenAct
    rw [preact_backprop]
  have hAct : NeuralController.hiddenAct c f i =
      NeuralController.sigmoid (NeuralController.preact c f i) := rfl
  rw [hb]
  rcases le_or_lt 0 (NeuralController.w2Upd c f t i) with hw | hw
  · have hgh : 0 ≤ NeuralController.gradH c f t i := by
      have key : 0 ≤ (NeuralController.gradOut c f t *
            NeuralController.w2Upd c f t i) *
          (NeuralController.hiddenAct c f i *
            (1 - NeuralController.hiddenAct c f i)) :=
        mul_nonneg (mul_nonneg hg hw) (mul_nonneg h0 (by linarith))
      unfold NeuralController.gradH
      nlinarith [key]
    have harg : NeuralController.preact c f i -
        c.lr * NeuralController.gradH c f t i * ((∑ j, f j * f j) + 1) ≤
          NeuralController.preact c f i := by
      have key : 0 ≤ c.lr * NeuralController.gradH c f t i *
          ((∑ j, f j * f j) + 1) :=
        mul_nonneg (mul_nonneg hlr hgh) hfs
      linarith
    calc NeuralController.w2Upd c f t i *
        NeuralController.sigmoid (NeuralController.preact c f i -
          c.lr * NeuralController.gradH c f t i * ((∑ j, f j * f j) + 1))
        ≤ NeuralController.w2Upd c f t i *
            NeuralController.sigmoid (NeuralController.preact c f i) :=
          mul_le_mul_of_nonneg_left (sigmoid_mono harg) hw
      _ = NeuralController.w2Upd c f t i * NeuralController.hiddenAct c f i := by
          rw [hAct]
  · have hgh : NeuralController.gradH c f t i ≤ 0 := by
      have key1 : NeuralController.gradOut c f t *
          NeuralController.w2Upd c f t i ≤ 0 := by nlinarith [hg, hw.le]
      have key : NeuralController.gradOut c f t *
            NeuralController.w2Upd c f t i *
          (NeuralController.hiddenAct c f i *
            (1 - NeuralController.hiddenAct c f i)) ≤ 0 := by
        nlinarith [key1, mul_nonneg h0 (by linarith :
          (0 : ℝ) ≤ 1 - NeuralController.hiddenAct c f i)]
      unfold NeuralController.gradH
      nlinarith [key]
    have harg : NeuralController.preact c f i ≤ NeuralController.preact c f i -
        c.lr * NeuralController.gradH c f t i * ((∑ j, f j * f j) + 1) := by
      have key : 0 ≤ c.lr * (- NeuralController.gradH c f t i) *
          ((∑ j, f j * f j) + 1) :=
        mul_nonneg (mul_nonneg hlr (neg_nonneg.mpr hgh)) hfs
      nlinarith [key]
    calc NeuralController.w2Upd c f t i *
        NeuralController.sigmoid (NeuralController.preact c f i -
          c.lr * NeuralController.gradH c f t i * ((∑ j, f j * f j) + 1))
        ≤ NeuralController.w2Upd c f t i *
            NeuralController.sigmoid (NeuralController.preact c f i) :=
          mul_le_mul_of_nonpos_left (sigmoid_mono harg) hw.le
      _ = NeuralController.w2Upd c f t i * NeuralController.hiddenAct c f i := by
          rw [hAct]

theorem rawOut_backprop_ge (c : NeuralController) (f : Fin 5 → ℝ) (t : ℝ)
    (hlr : 0 ≤ c.lr) (hg : NeuralController.gradOut c f t ≤ 0) :
    NeuralController.rawOut c f ≤
      NeuralController.rawOut (NeuralController.backprop c f t) f := by
  have hsum := Finset.sum_le_sum fun i (_ : i ∈ Finset.univ) =>
    backprop_term_ge c f t i hlr hg
  have hb2 : c.b2 ≤ c.b2 - c.lr * NeuralController.gradOut c f t := by
    have key : 0 ≤ c.lr * (- NeuralController.gradOut c f t) :=
      mul_nonneg hlr (neg_nonneg.mpr hg)
    nlinarith [key]
  calc NeuralController.rawOut c f
      = (∑ i, c.w2 i * NeuralController.hiddenAct c f i) + c.b2 := rfl
    _ ≤ (∑ i, NeuralController.w2Upd c f t i *
          NeuralController.hiddenAct (NeuralController.backprop c f t) f i) +
        (c.b2 - c.lr * NeuralController.gradOut c f t) := add_le_add hsum hb2
    _ = NeuralController.rawOut (NeuralController.backprop c f t) f := rfl

theorem rawOut_backprop_le (c : NeuralController) (f : Fin 5 → ℝ) (t : ℝ)
    (hlr : 0 ≤ c.lr) (hg : 0 ≤ NeuralController.gradOut c f t) :
    NeuralController.rawOut (NeuralController.backprop c f t) f ≤
      NeuralController.rawOut c f := by
  have hsum := Finset.sum_le_sum fun i (_ : i ∈ Finset.univ) =>
    backprop_term_le c f t i hlr hg
  have hb2 : c.b2 - c.lr * NeuralController.gradOut c f t ≤ c.b2 := by
    have key : 0 ≤ c.lr * NeuralController.gradOut c f t := mul_nonneg hlr hg
    linarith
  calc NeuralController.rawOut (NeuralController.backprop c f t) f
      = (∑ i, NeuralController.w2Upd c f t i *
          NeuralController.hiddenAct (NeuralController.backprop c f t) f i) +
        (c.b2 - c.lr * NeuralController.gradOut c f t) := rfl
    _ ≤ (∑ i, c.w2 i * NeuralController.hiddenAct c f i) + c.b2 :=
        add_le_add hsum hb2
    _ = NeuralController.rawOut c f := rfl

/-- C8: after `decide` on a state, one `learn` with positive reward does not
decrease the duration of a subsequent `decide` on the same state, and one
`learn` with negative reward does not increase it. -/
theorem neural_learn_reward_monotone (c : NeuralController)
    (s next_s : TrafficState) (r : ℝ) (hlr : 0 ≤ c.lr) :
    (0 < r → (c.decide s).1.duration ≤
        (((c.decide s).2.learn s r next_s).decide s).1.duration) ∧
    (r < 0 → (((c.decide s).2.learn s r next_s).decide s).1.duration ≤
        (c.decide s).1.duration) := by
  have hlmem : ((c.decide s).2).memory.getLast? =
      some ⟨NeuralController.encode s,
        (NeuralController.forward c (NeuralController.encode s)).1⟩ := by
    show (c.memory ++ [_]).getLast? = _
    rw [List.getLast?_append_cons]
    rfl
  have hlearn : (c.decide s).2.learn s r next_s =
      NeuralController.backprop (c.decide s).2 (NeuralController.encode s)
        (max 0 (min 1
          (NeuralController.sigmoid
              (NeuralController.rawOut c (NeuralController.encode s)) +
            3 / 10 * max (-1) (min 1 (r / 20))))) := by
    unfold NeuralController.learn
    rw [hlmem]
    rfl
  have hp0 : 0 ≤ NeuralController.sigmoid
      (NeuralController.rawOut c (NeuralController.encode s)) :=
    (sigmoid_pos _).le
  have hp1 : NeuralController.sigmoid
      (NeuralController.rawOut c (NeuralController.encode s)) ≤ 1 :=
    (sigmoid_lt_one _).le
  constructor
  · intro hr
    have hrs : 0 ≤ max (-1) (min 1 (r / 20)) := by
      have h2 : 0 ≤ min 1 (r / 20) := le_min (by norm_num) (by linarith)
      exact le_trans h2 (le_max_right _ _)
    have ht : NeuralController.sigmoid
        (NeuralController.rawOut c (NeuralController.encode s)) ≤
        max 0 (min 1
          (NeuralController.sigmoid
              (NeuralController.rawOut c (NeuralController.encode s)) +
            3 / 10 * max (-1) (min 1 (r / 20)))) := by
      have h2 : NeuralController.sigmoid
          (NeuralController.rawOut c (NeuralController.encode s)) ≤
          min 1 (NeuralController.sigmoid
              (NeuralController.rawOut c (NeuralController.encode s)) +
            3 / 10 * max (-1) (min 1 (r / 20))) :=
        le_min hp1 (by linarith)
      exact le_trans h2 (le_max_right _ _)
    have hg : NeuralController.gradOut (c.decide s).2
        (NeuralController.encode s)
        (max 0 (min 1
          (NeuralController.sigmoid
              (NeuralController.rawOut c (NeuralController.encode s)) +
            3 / 10 * max (-1) (min 1 (r / 20))))) ≤ 0 :=
      gradOut_nonpos (c.decide s).2 (NeuralController.encode s) ht
    have hraw : NeuralController.rawOut c (NeuralController.encode s) ≤
        NeuralController.rawOut
          (NeuralController.backprop (c.decide s).2 (NeuralController.encode s)
            (max 0 (min 1
              (NeuralController.sigmoid
                  (NeuralController.rawOut c (NeuralController.encode s)) +
                3 / 10 * max (-1) (min 1 (r / 20))))))
          (NeuralController.encode s) :=
      rawOut_backprop_ge (c.decide s).2 (NeuralController.encode s) _ hlr hg
    have hs2 := sigmoid_mono hraw
    rw [hlearn]
    show (4 : ℝ) + 12 * NeuralController.sigmoid
        (NeuralController.rawOut c (NeuralController.encode s)) ≤
      4 + 12 * NeuralController.sigmoid
        (NeuralController.rawOut
          (NeuralController.backprop (c.decide s).2 (NeuralController.encode s)
            (max 0 (min 1
              (NeuralController.sigmoid
                  (NeuralController.rawOut c (NeuralController.encode s)) +
                3 / 10 * max (-1) (min 1 (r / 20))))))
          (NeuralController.encode s))
    linarith [hs2]
  · intro hr
    have hrs : max (-1) (min 1 (r / 20)) ≤ 0 :=
      max_le (by norm_num) (le_trans (min_le_right _ _) (by linarith))
    have ht : max 0 (min 1
        (NeuralController.sigmoid
            (NeuralController.rawOut c (NeuralController.encode s)) +
          3 / 10 * max (-1) (min 1 (r / 20)))) ≤
        NeuralController.sigmoid
          (NeuralController.rawOut c (NeuralController.encode s)) :=
      max_le hp0 (le_trans (min_le_right _ _) (by linarith))
    have hg : 0 ≤ NeuralController.gradOut (c.decide s).2
        (NeuralController.encode s)
        (max 0 (min 1
          (NeuralController.sigmoid
              (NeuralController.rawOut c (NeuralController.encode s)) +
            3 / 10 * max (-1) (min 1 (r / 20))))) :=
      gradOut_nonneg (c.decide s).2 (NeuralController.encode s) ht
    have hraw : NeuralController.rawOut
          (NeuralController.backprop (c.decide s).2 (NeuralController.encode s)
            (max 0 (min 1
              (NeuralController.sigmoid
                  (NeuralController.rawOut c (NeuralController.encode s)) +
                3 / 10 * max (-1) (min 1 (r / 20))))))
          (NeuralController.encode s) ≤
        NeuralController.rawOut c (NeuralController.encode s) :=
      rawOut_backprop_le (c.decide s).2 (NeuralController.encode s) _ hlr hg
    have hs2 := sigmoid_mono hraw
    rw [hlearn]
    show (4 : ℝ) + 12 * NeuralController.sigmoid
        (NeuralController.rawOut
          (NeuralController.backprop (c.decide s).2 (NeuralController.encode s)
            (max 0 (min 1
              (NeuralController.sigmoid
                  (NeuralController.rawOut c (NeuralController.encode s)) +
                3 / 10 * max (-1) (min 1 (r / 20))))))
          (NeuralController.encode s)) ≤
      4 + 12 * NeuralController.sigmoid
        (NeuralController.rawOut c (NeuralController.encode s))
    linarith [hs2]

/-- Witness for C8 at the all-zero controller with rewards 20 and -20. -/
theorem neural_learn_reward_monotone_witness :
    ((0 : ℝ) ≤ ncZero.lr ∧ (0 : ℝ) < 20 ∧
      (ncZero.decide stateZero).1.duration ≤
        (((ncZero.decide stateZero).2.learn stateZero 20 stateZero).decide
          stateZero).1.duration) ∧
    ((-20 : ℝ) < 0 ∧
      (((ncZero.decide stateZero).2.learn stateZero (-20) stateZero).decide
          stateZero).1.duration ≤
        (ncZero.decide stateZero).1.duration) :=
  ⟨⟨by norm_num [ncZero], by norm_num,
    (neural_learn_reward_monotone ncZero stateZero stateZero 20
      (by norm_num [ncZero])).1 (by norm_num)⟩,
   ⟨by norm_num,
    (neural_learn_reward_monotone ncZero stateZero stateZero (-20)
      (by norm_num [ncZero])).2 (by norm_num)⟩⟩
